import Mathlib

/-!
# Verification of the `snowflake` ID generator

A shallow embedding of `src/index.ts` (class `Snowflake`): the constructor,
`getNodeId`, `generate`, and `decode`, together with proofs of the spec's
claims about them.

JavaScript `bigint` values are modelled by `Int` (arbitrary-precision signed
integers, with arithmetic shifts and two's-complement bitwise operations,
exactly as JS `bigint`); JS `number` values that stay integral and small are
modelled by `Int` or `Nat` as appropriate.  `Date.now()` reads are passed in
explicitly: `generate` receives the read at its first line (`t1`) and the
read used for the packed timestamp (`t2`); the busy-wait loop's exit
guarantee is expressed as the proposition `waitOk`.
-/

namespace Snowflake

/-- The error message thrown by the constructor (src/index.ts lines 44-46). -/
def configMsg : String := "Node ID override must be between 0 and 1023."

/-- The error message thrown by `generate` on clock regression
(src/index.ts lines 86-88). -/
def clockRegressionMsg : String :=
  "Time since epoch is less than the last time an ID was generated. This indicates the clock has moved backwards, rejecting to generate an ID to avoid potential collisions."

/-- The mutable fields of a `Snowflake` instance (src/index.ts lines 11-14)
together with the fixed `epoch` and `nodeId`. -/
structure SnowflakeState where
  epoch : Int
  sequence : Nat
  nodeId : Int
  lastTimestamp : Int
  deriving DecidableEq, Repr

/-- The default epoch (src/index.ts line 22, Twitter's epoch). -/
def defaultEpoch : Int := 1288834974657

/-- The constructor (src/index.ts lines 21-53).  `computedNodeId` stands for
the value `computeNodeId()` produced from the host's MAC address; it is a
parameter because it is environment-dependent.  The only validation in the
source is `if (nodeIdOverride > 1023) throw`. -/
def mkSnowflake (computedNodeId : Int) (epoch : Int) (nodeIdOverride : Option Int) :
    Except String SnowflakeState :=
  match nodeIdOverride with
  | some o =>
      if o > 1023 then
        Except.error configMsg
      else
        Except.ok { epoch := epoch, sequence := 0, nodeId := o, lastTimestamp := -1 }
  | none =>
      Except.ok { epoch := epoch, sequence := 0, nodeId := computedNodeId, lastTimestamp := -1 }

/-- `getNodeId` (src/index.ts lines 62-64). -/
def getNodeId (st : SnowflakeState) : Int := st.nodeId

/-- The packing expression of `generate` (src/index.ts lines 105-108):
`(timestampSinceEpoch << 22n) | (BigInt(this.nodeId) << 12n) | BigInt(this.sequence)`. -/
def packId (timestampSinceEpoch nodeId sequence : Int) : Int :=
  Int.lor (Int.lor (timestampSinceEpoch <<< (22 : Int)) (nodeId <<< (12 : Int))) sequence

/-- `generate` (src/index.ts lines 82-111).  `t1` is the `Date.now()` read at
line 83; `t2` is the read at line 102 (taken after the busy-wait of line 96,
when that wait runs).  The returned pair is (result, post-call state): the
state is unchanged when the clock-regression error is thrown, since the
throw happens before any field is assigned. -/
def generate (st : SnowflakeState) (t1 t2 : Int) :
    Except String Int × SnowflakeState :=
  let elapsed1 := t1 - st.epoch
  if elapsed1 < st.lastTimestamp then
    (Except.error clockRegressionMsg, st)
  else
    let seq := if elapsed1 = st.lastTimestamp then (st.sequence + 1) &&& 0xfff else 0
    let timestampSinceEpoch := t2 - st.epoch
    let id := packId timestampSinceEpoch st.nodeId seq
    (Except.ok id,
     { st with sequence := seq, lastTimestamp := timestampSinceEpoch })

/-- Exit guarantee of the busy-wait loop (src/index.ts line 96): the loop
`while (BigInt(Date.now()) - this.epoch <= this.lastTimestamp) {}` runs only
when the same-millisecond branch wrapped the sequence to 0, and it exits only
once a clock read exceeds `lastTimestamp`; with a non-decreasing clock the
read `t2` taken after the loop then also exceeds `lastTimestamp`. -/
def waitOk (st : SnowflakeState) (t1 t2 : Int) : Prop :=
  (t1 - st.epoch = st.lastTimestamp ∧ (st.sequence + 1) &&& 0xfff = 0) →
    st.lastTimestamp < t2 - st.epoch

/-- The record returned by `decode` (src/index.ts lines 132-151). -/
structure Decoded where
  timestamp : Int
  nodeId : Int
  sequence : Int
  deriving DecidableEq, Repr

/-- `decode` (src/index.ts lines 152-161). -/
def decode (st : SnowflakeState) (snowflakeId : Int) : Decoded :=
  { timestamp := Int.land (snowflakeId >>> (22 : Int)) 0x1ffffffffff + st.epoch
  , nodeId := Int.land (snowflakeId >>> (12 : Int)) 0x3ff
  , sequence := Int.land snowflakeId 0xfff }

/-! ## Arithmetic facts about the bitwise operations

JS `bigint` shifts are arithmetic and its bitwise operators act on the
two's-complement representation; `Int.shiftLeft`/`Int.lor`/`Int.land` have
exactly those semantics.  The lemmas below reduce the packing and unpacking
expressions to plain integer arithmetic. -/

theorem testBit_mul_pow_add (m r t i : Nat) (hr : r < 2^t) :
    (m * 2^t + r).testBit i = if i < t then r.testBit i else m.testBit (i - t) := by
  rcases Nat.lt_or_ge i t with hi | hi
  · rw [if_pos hi, Nat.testBit_to_div_mod, Nat.testBit_to_div_mod]
    have h1 : m * 2^t + r = r + 2^i * (m * 2^(t - i - 1) * 2) := by
      have h2 : 2^i * (2^(t - i - 1) * 2) = 2^t := by
        rw [← pow_succ, ← pow_add]; congr 1; omega
      calc m * 2^t + r = r + m * (2^i * (2^(t - i - 1) * 2)) := by rw [h2]; ring
        _ = r + 2^i * (m * 2^(t - i - 1) * 2) := by ring
    rw [h1, Nat.add_mul_div_left _ _ (Nat.two_pow_pos i), Nat.add_mul_mod_self_right]
  · rw [if_neg (by omega), Nat.testBit_to_div_mod, Nat.testBit_to_div_mod]
    have hi2 : 2^i = 2^t * 2^(i - t) := by rw [← pow_add]; congr 1; omega
    have h1 : m * 2^t + r = r + 2^t * m := by ring
    rw [hi2, ← Nat.div_div_eq_div_mul, h1, Nat.add_mul_div_left _ _ (Nat.two_pow_pos t),
      Nat.div_eq_of_lt hr, Nat.zero_add]

theorem testBit_mul_pow (m t i : Nat) :
    (m * 2^t).testBit i = if i < t then false else m.testBit (i - t) := by
  have h := testBit_mul_pow_add m 0 t i (Nat.two_pow_pos t)
  simpa using h

theorem mul_pow_lor_eq_add (m r t : Nat) (hr : r < 2^t) :
    m * 2^t ||| r = m * 2^t + r := by
  apply Nat.eq_of_testBit_eq
  intro i
  rw [Nat.testBit_or, testBit_mul_pow_add m r t i hr, testBit_mul_pow]
  rcases Nat.lt_or_ge i t with hi | hi
  · simp [hi]
  · rw [if_neg (by omega), if_neg (by omega),
      Nat.testBit_lt_two_pow (lt_of_lt_of_le hr (Nat.pow_le_pow_right (by norm_num) hi)),
      Bool.or_false]

theorem ldiff_ones_sub (k r t : Nat) (hr : r < 2^t) :
    Nat.ldiff (k * 2^t + (2^t - 1)) r = k * 2^t + (2^t - 1 - r) := by
  apply Nat.eq_of_testBit_eq
  intro i
  rw [Nat.testBit_ldiff,
    testBit_mul_pow_add k (2^t - 1) t i (by have := Nat.two_pow_pos t; omega),
    testBit_mul_pow_add k (2^t - 1 - r) t i (by have := Nat.two_pow_pos t; omega)]
  rcases Nat.lt_or_ge i t with hi | hi
  · rw [if_pos hi, if_pos hi, Nat.testBit_two_pow_sub_one,
      show 2^t - 1 - r = 2^t - (r + 1) by omega, Nat.testBit_two_pow_sub_succ hr]
  · rw [if_neg (by omega), if_neg (by omega),
      Nat.testBit_lt_two_pow (lt_of_lt_of_le hr (Nat.pow_le_pow_right (by norm_num) hi))]
    simp

theorem lor_ofNat (a b : Nat) :
    Int.lor (Int.ofNat a) (Int.ofNat b) = Int.ofNat (a ||| b) := rfl

theorem lor_negSucc_ofNat (a b : Nat) :
    Int.lor (Int.negSucc a) (Int.ofNat b) = Int.negSucc (Nat.ldiff a b) := rfl

theorem land_ofNat (a b : Nat) :
    Int.land (Int.ofNat a) (Int.ofNat b) = Int.ofNat (a &&& b) := rfl

theorem land_negSucc_ofNat (a b : Nat) :
    Int.land (Int.negSucc a) (Int.ofNat b) = Int.ofNat (Nat.ldiff b a) := rfl

theorem shiftLeft_ofNat' (m k : Nat) :
    (Int.ofNat m) <<< (Int.ofNat k) = Int.ofNat (m <<< k) := Int.shiftLeft_coe_nat m k

theorem shiftLeft_negSucc' (m k : Nat) :
    (Int.negSucc m) <<< (Int.ofNat k) = Int.negSucc (Nat.shiftLeft' true m k) :=
  Int.shiftLeft_negSucc m k

/-- The packing expression equals plain arithmetic, for every integer
timestamp (positive or negative) and in-range node id and sequence. -/
theorem packId_eq (e : Int) (n s : Nat) (hn : n < 2^10) (hs : s < 2^12) :
    packId e ((n : Nat) : Int) ((s : Nat) : Int) = e * 2^22 + ((n * 2^12 + s : Nat) : Int) := by
  have hn12 : n * 2^12 < 2^22 := by omega
  have hcast : ((n : Nat) : Int) = Int.ofNat n := rfl
  have hcast2 : ((s : Nat) : Int) = Int.ofNat s := rfl
  cases e with
  | ofNat m =>
      rw [packId, hcast, hcast2, show (22 : Int) = Int.ofNat 22 from rfl,
        show (12 : Int) = Int.ofNat 12 from rfl,
        shiftLeft_ofNat', shiftLeft_ofNat', lor_ofNat, lor_ofNat,
        Nat.shiftLeft_eq, Nat.shiftLeft_eq,
        mul_pow_lor_eq_add m (n * 2^12) 22 hn12,
        show m * 2^22 + n * 2^12 = (m * 2^10 + n) * 2^12 by ring,
        mul_pow_lor_eq_add _ s 12 hs]
      simp only [Int.ofNat_eq_natCast]
      push_cast
      ring
  | negSucc k =>
      rw [packId, hcast, hcast2, show (22 : Int) = Int.ofNat 22 from rfl,
        show (12 : Int) = Int.ofNat 12 from rfl,
        shiftLeft_negSucc', shiftLeft_ofNat', lor_negSucc_ofNat,
        show Nat.shiftLeft' true k 22 = k * 2^22 + (2^22 - 1) by
          have := Nat.shiftLeft'_tt_eq_mul_pow k 22; omega,
        Nat.shiftLeft_eq,
        ldiff_ones_sub k (n * 2^12) 22 hn12,
        show k * 2^22 + (2^22 - 1 - n * 2^12) =
          (k * 2^10 + (2^10 - 1 - n)) * 2^12 + (2^12 - 1) by omega,
        lor_negSucc_ofNat,
        ldiff_ones_sub _ s 12 hs,
        Int.negSucc_eq, Int.negSucc_eq]
      push_cast
      omega

/-- `packId_eq` restated for `Int` node id and sequence arguments. -/
theorem packId_eq' (e n s : Int) (hn0 : 0 ≤ n) (hn : n < 2^10)
    (hs0 : 0 ≤ s) (hs : s < 2^12) :
    packId e n s = e * 2^22 + n * 2^12 + s := by
  obtain ⟨n', rfl⟩ := Int.eq_ofNat_of_zero_le hn0
  obtain ⟨s', rfl⟩ := Int.eq_ofNat_of_zero_le hs0
  rw [packId_eq e n' s' (by exact_mod_cast hn) (by exact_mod_cast hs)]
  push_cast
  ring

/-- `decode` on a non-negative input, reduced to division and remainder. -/
theorem decode_natCast (st : SnowflakeState) (a : Nat) :
    decode st ((a : Nat) : Int) =
      { timestamp := ((a / 2^22 % 2^41 : Nat) : Int) + st.epoch
      , nodeId := ((a / 2^12 % 2^10 : Nat) : Int)
      , sequence := ((a % 2^12 : Nat) : Int) } := by
  rw [decode, show ((a : Nat) : Int) = Int.ofNat a from rfl,
    show (22 : Int) = Int.ofNat 22 from rfl, show (12 : Int) = Int.ofNat 12 from rfl,
    show ((Int.ofNat a) >>> (Int.ofNat 22)) = Int.ofNat (a >>> 22) from
      Int.shiftRight_coe_nat a 22,
    show ((Int.ofNat a) >>> (Int.ofNat 12)) = Int.ofNat (a >>> 12) from
      Int.shiftRight_coe_nat a 12,
    show (0x1ffffffffff : Int) = Int.ofNat 0x1ffffffffff from rfl,
    show (0x3ff : Int) = Int.ofNat 0x3ff from rfl,
    show (0xfff : Int) = Int.ofNat 0xfff from rfl,
    land_ofNat, land_ofNat, land_ofNat,
    Nat.shiftRight_eq_div_pow, Nat.shiftRight_eq_div_pow,
    show (0x1ffffffffff : Nat) = 2^41 - 1 by norm_num,
    show (0x3ff : Nat) = 2^10 - 1 by norm_num,
    show (0xfff : Nat) = 2^12 - 1 by norm_num,
    Nat.and_pow_two_sub_one_eq_mod, Nat.and_pow_two_sub_one_eq_mod,
    Nat.and_pow_two_sub_one_eq_mod]
  rfl

/-- What a successful `generate` call does, read off the source: it requires
the first clock read's elapsed time to be at least `lastTimestamp`, leaves
`epoch` and `nodeId` alone, stores the second read's elapsed time in
`lastTimestamp`, updates `sequence` by the same-millisecond rule, and returns
the packing of the new fields. -/
theorem generate_ok_spec (st : SnowflakeState) (t1 t2 id : Int) (st' : SnowflakeState)
    (h : generate st t1 t2 = (Except.ok id, st')) :
    st.lastTimestamp ≤ t1 - st.epoch ∧
    st'.epoch = st.epoch ∧ st'.nodeId = st.nodeId ∧
    st'.lastTimestamp = t2 - st.epoch ∧
    st'.sequence =
      (if t1 - st.epoch = st.lastTimestamp then (st.sequence + 1) &&& 0xfff else 0) ∧
    id = packId (t2 - st.epoch) st.nodeId (st'.sequence : Int) := by
  simp only [generate] at h
  by_cases hlt : t1 - st.epoch < st.lastTimestamp
  · rw [if_pos hlt] at h
    simp at h
  · rw [if_neg hlt] at h
    simp only [Prod.mk.injEq, Except.ok.injEq] at h
    obtain ⟨hid, hst⟩ := h
    subst hst
    exact ⟨not_lt.mp hlt, rfl, rfl, rfl, rfl, hid.symm⟩

/-- `generate` never changes `nodeId`, whether it throws or succeeds. -/
theorem generate_preserves_nodeId (st : SnowflakeState) (t1 t2 : Int) :
    (generate st t1 t2).2.nodeId = st.nodeId := by
  simp only [generate]
  split <;> rfl

/-! ## The claims -/

/-- C4: `generate` fails with the clock-regression error, producing no
identifier, exactly when the elapsed time observed at the start of the call
(first clock read minus epoch) is strictly less than the stored
`lastTimestamp`; when it is greater or equal the error is not raised. -/
theorem C4_clockRegression_iff (st : SnowflakeState) (t1 t2 : Int) :
    (generate st t1 t2).1 = Except.error clockRegressionMsg ↔
      t1 - st.epoch < st.lastTimestamp := by
  simp only [generate]
  by_cases hlt : t1 - st.epoch < st.lastTimestamp
  · rw [if_pos hlt]; simp [hlt]
  · rw [if_neg hlt]; simp [hlt]

/-- C6: with epoch 1288834974657, decoding 1888944671579078978 yields
timestamp 1739194479256, node id 360 and sequence 322 (the Wikipedia
example, also in the repository's test suite). -/
theorem C6_decode_scenario :
    (mkSnowflake 0 1288834974657 none).map
        (fun st => decode st 1888944671579078978) =
      Except.ok { timestamp := 1739194479256, nodeId := 360, sequence := 322 } := by
  rfl

/-- C3 (as the code actually behaves): the constructor accepts the
out-of-range override -1 and builds a generator whose node id is -1, because
the source only checks `nodeIdOverride > 1023` — contradicting its own error
message "Node ID override must be between 0 and 1023.". -/
theorem C3_negative_override_accepted :
    mkSnowflake 0 defaultEpoch (some (-1)) =
      Except.ok { epoch := defaultEpoch, sequence := 0, nodeId := -1, lastTimestamp := -1 } :=
  rfl

/-- C7: when `generate` raises an error the instance state is returned
unchanged, and a subsequent call whose observed elapsed time is at least
`lastTimestamp` succeeds and produces an identifier. -/
theorem C7_error_atomicity (st : SnowflakeState) (t1 t2 : Int) (msg : String)
    (st' : SnowflakeState) (h : generate st t1 t2 = (Except.error msg, st')) :
    st' = st ∧
    ∀ t3 t4 : Int, st.lastTimestamp ≤ t3 - st.epoch →
      ∃ id st'', generate st t3 t4 = (Except.ok id, st'') := by
  constructor
  · simp only [generate] at h
    by_cases hlt : t1 - st.epoch < st.lastTimestamp
    · rw [if_pos hlt] at h
      simp only [Prod.mk.injEq] at h
      exact h.2.symm
    · rw [if_neg hlt] at h
      simp at h
  · intro t3 t4 h34
    exact ⟨_, _, by simp only [generate]; rw [if_neg (not_lt.mpr h34)]⟩

/-- Witness for C7 at a concrete clock-regression call. -/
theorem C7_error_atomicity_witness :
    ({ epoch := 0, sequence := 0, nodeId := 0, lastTimestamp := 5 } : SnowflakeState) =
      { epoch := 0, sequence := 0, nodeId := 0, lastTimestamp := 5 } ∧
    ∀ t3 t4 : Int, (5 : Int) ≤ t3 - (0 : Int) →
      ∃ id st'',
        generate { epoch := 0, sequence := 0, nodeId := 0, lastTimestamp := 5 } t3 t4 =
          (Except.ok id, st'') :=
  C7_error_atomicity _ 3 3 clockRegressionMsg _ rfl

/-- C8: every override in [0, 1023] is accepted by the constructor, and
`getNodeId` returns exactly that override; `generate` — the only operation
that mutates an instance — never changes it. -/
theorem C8_override_returned (c epoch o : Int) (h0 : 0 ≤ o) (h1 : o ≤ 1023) :
    ∃ st, mkSnowflake c epoch (some o) = Except.ok st ∧ getNodeId st = o ∧
      ∀ t1 t2 : Int, getNodeId (generate st t1 t2).2 = o := by
  refine ⟨{ epoch := epoch, sequence := 0, nodeId := o, lastTimestamp := -1 }, ?_, rfl, ?_⟩
  · simp only [mkSnowflake]
    rw [if_neg (by omega)]
  · intro t1 t2
    rw [getNodeId, generate_preserves_nodeId]

/-- Witness for C8 at override 42. -/
theorem C8_override_returned_witness :
    ∃ st, mkSnowflake 0 0 (some 42) = Except.ok st ∧ getNodeId st = 42 ∧
      ∀ t1 t2 : Int, getNodeId (generate st t1 t2).2 = 42 :=
  C8_override_returned 0 0 42 (by norm_num) (by norm_num)

/-- C1: round-trip law — for every elapsed time in [0, 2^41-1], node id in
[0, 1023] and sequence in [0, 4095], decoding the packed identifier with the
same instance epoch recovers exactly `epoch + elapsed`, the node id and the
sequence. -/
theorem C1_roundtrip (st : SnowflakeState) (e n s : Nat)
    (he : e < 2^41) (hn : n < 2^10) (hs : s < 2^12) :
    decode st (packId ((e : Nat) : Int) ((n : Nat) : Int) ((s : Nat) : Int)) =
      { timestamp := st.epoch + ((e : Nat) : Int)
      , nodeId := ((n : Nat) : Int)
      , sequence := ((s : Nat) : Int) } := by
  have hp : packId ((e : Nat) : Int) ((n : Nat) : Int) ((s : Nat) : Int) =
      ((e * 2^22 + n * 2^12 + s : Nat) : Int) := by
    rw [packId_eq e n s hn hs]
    push_cast
    ring
  rw [hp, decode_natCast,
    show (e * 2^22 + n * 2^12 + s) / 2^22 % 2^41 = e by omega,
    show (e * 2^22 + n * 2^12 + s) / 2^12 % 2^10 = n by omega,
    show (e * 2^22 + n * 2^12 + s) % 2^12 = s by omega,
    add_comm ((e : Nat) : Int) st.epoch]

/-- Witness for C1 at elapsed 5, node id 7, sequence 9. -/
theorem C1_roundtrip_witness :
    decode { epoch := 1288834974657, sequence := 0, nodeId := 0, lastTimestamp := -1 }
        (packId (((5 : Nat) : Int)) (((7 : Nat) : Int)) (((9 : Nat) : Int))) =
      { timestamp := (1288834974657 : Int) + ((5 : Nat) : Int)
      , nodeId := ((7 : Nat) : Int)
      , sequence := ((9 : Nat) : Int) } :=
  C1_roundtrip _ 5 7 9 (by norm_num) (by norm_num) (by norm_num)

/-- C9: decoding any non-negative 64-bit input — not only generated
identifiers — yields a node id in [0, 1023] and a sequence in [0, 4095],
because both fields are extracted under explicit bit masks. -/
theorem C9_decode_field_ranges (st : SnowflakeState) (a : Nat) (h64 : a < 2^64) :
    0 ≤ (decode st ((a : Nat) : Int)).nodeId ∧
      (decode st ((a : Nat) : Int)).nodeId < 1024 ∧
      0 ≤ (decode st ((a : Nat) : Int)).sequence ∧
      (decode st ((a : Nat) : Int)).sequence < 4096 := by
  rw [decode_natCast]
  refine ⟨by positivity, ?_, by positivity, ?_⟩
  · show ((a / 2^12 % 2^10 : Nat) : Int) < 1024
    exact_mod_cast (by omega : a / 2^12 % 2^10 < 1024)
  · show ((a % 2^12 : Nat) : Int) < 4096
    exact_mod_cast (by omega : a % 2^12 < 4096)

/-- Witness for C9 at the input 2^63. -/
theorem C9_decode_field_ranges_witness :
    0 ≤ (decode { epoch := 0, sequence := 0, nodeId := 0, lastTimestamp := -1 }
          (((2^63 : Nat) : Int))).nodeId ∧
      (decode { epoch := 0, sequence := 0, nodeId := 0, lastTimestamp := -1 }
          (((2^63 : Nat) : Int))).nodeId < 1024 ∧
      0 ≤ (decode { epoch := 0, sequence := 0, nodeId := 0, lastTimestamp := -1 }
          (((2^63 : Nat) : Int))).sequence ∧
      (decode { epoch := 0, sequence := 0, nodeId := 0, lastTimestamp := -1 }
          (((2^63 : Nat) : Int))).sequence < 4096 :=
  C9_decode_field_ranges _ (2^63) (by norm_num)

/-- C10: the packing step does not truncate the elapsed time — for every
elapsed ≥ 0 and in-range node id and sequence, the packed value equals
exactly `elapsed * 2^22 + nodeId * 2^12 + sequence`; it stays below 2^63
(the documented 64-bit layout) exactly while `elapsed < 2^41`, and exceeds
it for `elapsed ≥ 2^41`. -/
theorem C10_pack_no_truncation (e n s : Nat) (hn : n < 1024) (hs : s < 4096) :
    packId ((e : Nat) : Int) ((n : Nat) : Int) ((s : Nat) : Int) =
        ((e : Nat) : Int) * 2^22 + ((n : Nat) : Int) * 2^12 + ((s : Nat) : Int) ∧
      (e < 2^41 →
        packId ((e : Nat) : Int) ((n : Nat) : Int) ((s : Nat) : Int) < 2^63) ∧
      (2^41 ≤ e →
        2^63 ≤ packId ((e : Nat) : Int) ((n : Nat) : Int) ((s : Nat) : Int)) := by
  have hp : packId ((e : Nat) : Int) ((n : Nat) : Int) ((s : Nat) : Int) =
      ((e : Nat) : Int) * 2^22 + ((n : Nat) : Int) * 2^12 + ((s : Nat) : Int) := by
    rw [packId_eq e n s hn hs]
    push_cast
    ring
  refine ⟨hp, ?_, ?_⟩ <;> intro hcase <;> rw [hp]
  · have hb : e * 2^22 + n * 2^12 + s < 2^63 := by omega
    calc ((e : Nat) : Int) * 2^22 + ((n : Nat) : Int) * 2^12 + ((s : Nat) : Int)
        = ((e * 2^22 + n * 2^12 + s : Nat) : Int) := by push_cast; ring
      _ < 2^63 := by exact_mod_cast hb
  · have hb : (2^63 : Nat) ≤ e * 2^22 + n * 2^12 + s := by omega
    calc (2^63 : Int) ≤ ((e * 2^22 + n * 2^12 + s : Nat) : Int) := by exact_mod_cast hb
      _ = ((e : Nat) : Int) * 2^22 + ((n : Nat) : Int) * 2^12 + ((s : Nat) : Int) := by
          push_cast; ring

/-- Witness for C10 at elapsed 2^41 (the first over-range value), node id 3,
sequence 4. -/
theorem C10_pack_no_truncation_witness :
    packId (((2^41 : Nat) : Int)) (((3 : Nat) : Int)) (((4 : Nat) : Int)) =
        (((2^41 : Nat) : Int)) * 2^22 + (((3 : Nat) : Int)) * 2^12 + (((4 : Nat) : Int)) ∧
      (2^41 < 2^41 →
        packId (((2^41 : Nat) : Int)) (((3 : Nat) : Int)) (((4 : Nat) : Int)) < 2^63) ∧
      (2^41 ≤ 2^41 →
        2^63 ≤ packId (((2^41 : Nat) : Int)) (((3 : Nat) : Int)) (((4 : Nat) : Int))) :=
  C10_pack_no_truncation (2^41) 3 4 (by norm_num) (by norm_num)

/-- Masking by `0xfff` is reduction modulo 4096. -/
theorem and_fff_eq_mod (x : Nat) : x &&& 0xfff = x % 4096 := by
  rw [show (0xfff : Nat) = 2^12 - 1 by norm_num, Nat.and_pow_two_sub_one_eq_mod]

/-- Any integer multiple of 4096 vanishes under the `0xfff` mask, negative
multiples included (two's complement). -/
theorem land_mul_4096_mask (k : Int) : Int.land (k * 4096) 4095 = 0 := by
  cases k with
  | ofNat m =>
      rw [show (Int.ofNat m) * 4096 = Int.ofNat (m * 4096) by
            simp only [Int.ofNat_eq_natCast]; push_cast; ring,
        show (4095 : Int) = Int.ofNat 4095 from rfl, land_ofNat,
        show m * 4096 &&& 4095 = 0 by rw [and_fff_eq_mod]; omega]
      rfl
  | negSucc j =>
      rw [show (Int.negSucc j) * 4096 = Int.negSucc (j * 4096 + 4095) by
            rw [Int.negSucc_eq, Int.negSucc_eq]; push_cast; ring,
        show (4095 : Int) = Int.ofNat 4095 from rfl, land_negSucc_ofNat,
        show Nat.ldiff 4095 (j * 4096 + 4095) = 0 from ?_]
      · rfl
      · apply Nat.eq_of_testBit_eq
        intro i
        rw [Nat.testBit_ldiff, show j * 4096 + 4095 = j * 2^12 + (2^12 - 1) by norm_num,
          testBit_mul_pow_add j (2^12 - 1) 12 i (by norm_num)]
        rcases Nat.lt_or_ge i 12 with hi | hi
        · rw [if_pos hi, Nat.testBit_two_pow_sub_one]
          simp [hi]
        · rw [show (4095 : Nat) = 2^12 - 1 by norm_num,
            Nat.testBit_lt_two_pow
              (lt_of_lt_of_le (by norm_num) (Nat.pow_le_pow_right (by norm_num) hi))]
          simp

/-- C5: sequence update rule — when the observed elapsed time equals
`lastTimestamp` (same millisecond) the stored sequence becomes the previous
sequence plus one modulo 4096, so N ≤ 4096 calls within one millisecond carry
the successive distinct values 0..N-1; when the observed elapsed time is
strictly greater (a new millisecond) the sequence is reset to 0 and the
returned identifier decodes to sequence 0. -/
theorem C5_sequence_update (st : SnowflakeState) (t1 t2 : Int)
    (hn0 : 0 ≤ st.nodeId) (hn : st.nodeId < 1024) :
    (t1 - st.epoch = st.lastTimestamp →
        (generate st t1 t2).2.sequence = (st.sequence + 1) % 4096) ∧
    (st.lastTimestamp < t1 - st.epoch →
        (generate st t1 t2).2.sequence = 0 ∧
        ∀ id, (generate st t1 t2).1 = Except.ok id →
          (decode st id).sequence = 0) := by
  simp only [generate]
  by_cases hlt : t1 - st.epoch < st.lastTimestamp
  · rw [if_pos hlt]
    exact ⟨fun heq => absurd heq (by omega), fun hgt => absurd hgt (by omega)⟩
  · rw [if_neg hlt]
    constructor
    · intro heq
      show (if t1 - st.epoch = st.lastTimestamp then (st.sequence + 1) &&& 0xfff else 0) =
        (st.sequence + 1) % 4096
      rw [if_pos heq, and_fff_eq_mod]
    · intro hgt
      have hne : ¬(t1 - st.epoch = st.lastTimestamp) := by omega
      constructor
      · show (if t1 - st.epoch = st.lastTimestamp then (st.sequence + 1) &&& 0xfff else 0) = 0
        rw [if_neg hne]
      · intro id hid
        dsimp only at hid
        rw [if_neg hne] at hid
        simp only [Except.ok.injEq] at hid
        subst hid
        show Int.land (packId (t2 - st.epoch) st.nodeId (((0 : Nat) : Int))) 0xfff = 0
        rw [packId_eq' (t2 - st.epoch) st.nodeId _ hn0 (by omega) (by norm_num) (by norm_num),
          show (t2 - st.epoch) * 2^22 + st.nodeId * 2^12 + ((0 : Nat) : Int) =
            ((t2 - st.epoch) * 2^10 + st.nodeId) * 4096 by push_cast; ring]
        exact land_mul_4096_mask _

/-- Witness for C5 at a same-millisecond call (sequence 5 → 6) and a
vacuous new-millisecond branch. -/
theorem C5_sequence_update_witness :
    ((10 : Int) - (0 : Int) = (10 : Int) →
        (generate { epoch := 0, sequence := 5, nodeId := 1, lastTimestamp := 10 } 10 10).2.sequence
          = (5 + 1) % 4096) ∧
    ((10 : Int) < (10 : Int) - (0 : Int) →
        (generate { epoch := 0, sequence := 5, nodeId := 1, lastTimestamp := 10 } 10 10).2.sequence
            = 0 ∧
          ∀ id,
            (generate { epoch := 0, sequence := 5, nodeId := 1, lastTimestamp := 10 } 10 10).1
              = Except.ok id →
            (decode { epoch := 0, sequence := 5, nodeId := 1, lastTimestamp := 10 } id).sequence
              = 0) :=
  C5_sequence_update { epoch := 0, sequence := 5, nodeId := 1, lastTimestamp := 10 } 10 10
    (by norm_num) (by norm_num)

/-- C2: strict monotonicity — for one instance with an in-range node id, if
the wall-clock reads across two consecutive successful `generate` calls are
non-decreasing (and the busy-wait exit guarantee holds for the second call),
the second identifier is strictly greater than the first. -/
theorem C2_strict_monotonicity (st st1 st2 : SnowflakeState) (t1 t2 t3 t4 : Int)
    (id1 id2 : Int)
    (hn0 : 0 ≤ st.nodeId) (hn : st.nodeId < 1024)
    (h12 : t1 ≤ t2) (h23 : t2 ≤ t3) (h34 : t3 ≤ t4)
    (hg1 : generate st t1 t2 = (Except.ok id1, st1))
    (hw2 : waitOk st1 t3 t4)
    (hg2 : generate st1 t3 t4 = (Except.ok id2, st2)) :
    id1 < id2 := by
  obtain ⟨hle1, hep1, hnd1, hlt1, hsq1, hid1⟩ := generate_ok_spec st t1 t2 id1 st1 hg1
  obtain ⟨hle2, hep2, hnd2, hlt2, hsq2, hid2⟩ := generate_ok_spec st1 t3 t4 id2 st2 hg2
  have hs1 : st1.sequence < 4096 := by
    rw [hsq1]
    split
    · rw [and_fff_eq_mod]; omega
    · omega
  have hs2 : st2.sequence < 4096 := by
    rw [hsq2]
    split
    · rw [and_fff_eq_mod]; omega
    · omega
  simp only [waitOk] at hw2
  rw [hep1, hlt1] at hle2 hsq2 hw2
  rw [hep1] at hlt2
  rw [hid1, hid2, hnd1, hep1,
    packId_eq' _ _ _ hn0 (by omega) (Int.natCast_nonneg _) (by exact_mod_cast hs1),
    packId_eq' _ _ _ hn0 (by omega) (Int.natCast_nonneg _) (by exact_mod_cast hs2)]
  by_cases hsame : t3 - st.epoch = t2 - st.epoch
  · have hsq2' : st2.sequence = (st1.sequence + 1) % 4096 := by
      rw [hsq2, if_pos hsame, and_fff_eq_mod]
    by_cases hz : st2.sequence = 0
    · have hwait : t2 - st.epoch < t4 - st.epoch := by
        apply hw2
        refine ⟨hsame, ?_⟩
        rw [and_fff_eq_mod]
        rw [hsq2'] at hz
        exact hz
      rw [hz]
      push_cast
      omega
    · have hstep : st2.sequence = st1.sequence + 1 := by
        rw [hsq2']
        rcases Nat.lt_or_ge (st1.sequence + 1) 4096 with hlt' | hge
        · rw [Nat.mod_eq_of_lt hlt']
        · exfalso
          apply hz
          rw [hsq2']
          omega
      have h24 : t2 - st.epoch ≤ t4 - st.epoch := by omega
      rw [hstep]
      push_cast
      omega
  · have hsq2' : st2.sequence = 0 := by
      rw [hsq2, if_neg hsame]
    have hgt : t2 - st.epoch < t3 - st.epoch := by omega
    rw [hsq2']
    push_cast
    omega

/-- Witness for C2: two successive successful calls one millisecond apart. -/
theorem C2_strict_monotonicity_witness :
    packId 1 1 (((0 : Nat) : Int)) < packId 2 1 (((0 : Nat) : Int)) :=
  C2_strict_monotonicity
    { epoch := 0, sequence := 0, nodeId := 1, lastTimestamp := 0 }
    { epoch := 0, sequence := 0, nodeId := 1, lastTimestamp := 1 }
    { epoch := 0, sequence := 0, nodeId := 1, lastTimestamp := 2 }
    1 1 2 2 (packId 1 1 (((0 : Nat) : Int))) (packId 2 1 (((0 : Nat) : Int)))
    (by norm_num) (by norm_num) le_rfl (by norm_num) le_rfl rfl
    (fun h => absurd h.1 (by norm_num)) rfl

end Snowflake
